import Mathlib

/-!
# BalteMayer/agent: the chat request sender (`main.go`)

A shallow embedding of `func main` of `main.go` and the properties of its
single request/response flow.

Go strings and `[]byte` values are byte sequences. The calls `main` makes into
the Go standard library are embedded as follows.

* `json.Marshal`, the failure of `http.NewRequest` and `client.Do` are fields
  of a `World`: every theorem about `main` holds for every behaviour of them.
  The encoder of `encoding/json` is embedded as `Marshal`, and `goWorld`
  builds the worlds that use it.
* `http.NewRequest`, on success, returns a request with the method, URL and
  body it was given and an empty header; `bytes.NewBuffer` wraps the bytes
  unchanged.
* `Header.Set` replaces the values stored under the canonical key by the one
  value given.
* `ioutil.ReadAll` returns the bytes received so far together with the error
  that ended the read, if any.
* `fmt.Println` writes its operands separated by one space and ended by one
  newline; an `error` operand is written as the text of its `Error()` method.
  Writing to standard output is taken to succeed.
* `defer` calls run when `main` returns, last registered first.
* What one call of `client.Do` does on the network (round trips, redirects,
  connections) is embedded after `net/http` as `clientDo` over a `Transport`.

A run of `main` is the list of the events it causes, in order.
-/

namespace Agent

set_option autoImplicit false

/-! ## Bytes and text -/

/-- A byte, a natural number below 256. -/
abbrev Byte := Nat

/-- The contents of a Go `string` or `[]byte`. -/
abbrev Bytes := List Byte

/-- The UTF-8 bytes of a string literal of the source file. -/
def utf8 (s : String) : Bytes :=
  (s.data.flatMap String.utf8EncodeChar).map UInt8.toNat

/-- A Go `error` value, observed through the text `Error()` returns. -/
structure GoError where
  Error : Bytes
deriving DecidableEq, Repr

/-! ## Dynamic values (`interface{}`) -/

/-- The values an `interface{}` holds in this development: `nil`, booleans,
strings, `map[string]interface{}`, `[]interface{}`, and a channel, which
stands for the types `encoding/json` does not support. -/
inductive GoValue where
  | nil
  | bool (b : Bool)
  | string (s : Bytes)
  | map (entries : List (Bytes × GoValue))
  | slice (elems : List GoValue)
  | chan
deriving Repr

/-! ## `encoding/json`

The encoder follows `json.Marshal` (HTML escaping on, map keys sorted) and
the decoder follows `json.Unmarshal` into an `interface{}`, both on the
values of `GoValue`. JSON numbers are outside this fragment: the decoder
rejects them. -/

/-- The digit of Go's table `hex = "0123456789abcdef"`. -/
def hexDigit (n : Nat) : Byte :=
  if n < 10 then 48 + n else 87 + n

/-- The byte is a UTF-8 continuation byte within the bounds given. -/
def inRange (lo hi : Nat) (b : Byte) : Bool :=
  lo ≤ b && b ≤ hi

/-- Go's `utf8.DecodeRune`: the code point at the head of the bytes and its
width; an invalid or short encoding gives `(0xFFFD, 1)`. -/
def decodeRune : Bytes → Nat × Nat
  | [] => (0xFFFD, 1)
  | b0 :: rest =>
    if b0 < 0x80 then (b0, 1)
    else if inRange 0xC2 0xDF b0 then
      match rest with
      | b1 :: _ =>
        if inRange 0x80 0xBF b1 then ((b0 % 0x20) * 0x40 + b1 % 0x40, 2) else (0xFFFD, 1)
      | _ => (0xFFFD, 1)
    else if inRange 0xE0 0xEF b0 then
      match rest with
      | b1 :: b2 :: _ =>
        let lo := if b0 == 0xE0 then 0xA0 else 0x80
        let hi := if b0 == 0xED then 0x9F else 0xBF
        if inRange lo hi b1 && inRange 0x80 0xBF b2 then
          ((b0 % 0x10) * 0x1000 + (b1 % 0x40) * 0x40 + b2 % 0x40, 3)
        else (0xFFFD, 1)
      | _ => (0xFFFD, 1)
    else if inRange 0xF0 0xF4 b0 then
      match rest with
      | b1 :: b2 :: b3 :: _ =>
        let lo := if b0 == 0xF0 then 0x90 else 0x80
        let hi := if b0 == 0xF4 then 0x8F else 0xBF
        if inRange lo hi b1 && inRange 0x80 0xBF b2 && inRange 0x80 0xBF b3 then
          ((b0 % 0x08) * 0x40000 + (b1 % 0x40) * 0x1000 + (b2 % 0x40) * 0x40 + b3 % 0x40, 4)
        else (0xFFFD, 1)
      | _ => (0xFFFD, 1)
    else (0xFFFD, 1)

/-- Go's `utf8.AppendRune`: the UTF-8 bytes of a code point; a surrogate or a
value above `0x10FFFF` is written as U+FFFD. -/
def encodeRune (r : Nat) : Bytes :=
  if r < 0x80 then [r]
  else if r < 0x800 then [0xC0 + r / 0x40, 0x80 + r % 0x40]
  else if (0xD800 ≤ r && r ≤ 0xDFFF) || 0x10FFFF < r then [0xEF, 0xBF, 0xBD]
  else if r < 0x10000 then [0xE0 + r / 0x1000, 0x80 + (r / 0x40) % 0x40, 0x80 + r % 0x40]
  else [0xF0 + r / 0x40000, 0x80 + (r / 0x1000) % 0x40, 0x80 + (r / 0x40) % 0x40, 0x80 + r % 0x40]

/-- The table `htmlSafeSet` of `encoding/json`: the ASCII bytes written
without escaping. -/
def htmlSafe (b : Byte) : Bool :=
  0x20 ≤ b && b < 0x80 && !([34, 38, 60, 62, 92].contains b)

/-- The loop of `appendString` of `encoding/json` with HTML escaping (Go 1.22
and later, where `\b` and `\f` have short escapes): the escaped contents of
a string, without the quotes. The fuel is the number of bytes left. -/
def escapeString : Nat → Bytes → Bytes
  | 0, _ => []
  | _, [] => []
  | fuel + 1, b :: rest =>
    if b < 0x80 then
      if htmlSafe b then b :: escapeString fuel rest
      else if b == 92 || b == 34 then 92 :: b :: escapeString fuel rest
      else if b == 8 then 92 :: 98 :: escapeString fuel rest
      else if b == 12 then 92 :: 102 :: escapeString fuel rest
      else if b == 10 then 92 :: 110 :: escapeString fuel rest
      else if b == 13 then 92 :: 114 :: escapeString fuel rest
      else if b == 9 then 92 :: 116 :: escapeString fuel rest
      else 92 :: 117 :: 48 :: 48 :: hexDigit (b / 16) :: hexDigit (b % 16) :: escapeString fuel rest
    else
      let (c, size) := decodeRune (b :: rest)
      if c == 0xFFFD && size == 1 then
        utf8 "\\ufffd" ++ escapeString fuel rest
      else if c == 0x2028 || c == 0x2029 then
        utf8 "\\u202" ++ hexDigit (c % 16) :: escapeString fuel (rest.drop (size - 1))
      else
        (b :: rest).take size ++ escapeString fuel (rest.drop (size - 1))

/-- The function `appendString` of `encoding/json`: a quoted JSON string. -/
def appendString (s : Bytes) : Bytes :=
  34 :: escapeString s.length s ++ [34]

/-- Byte-wise comparison of two strings, as Go's `<` on strings. -/
def bytesLt : Bytes → Bytes → Bool
  | _, [] => false
  | [], _ :: _ => true
  | a :: as, b :: bs => a < b || (a == b && bytesLt as bs)

/-- Insertion of an encoded map entry among entries sorted by key. -/
def insertByKey (e : Bytes × Except GoError Bytes) :
    List (Bytes × Except GoError Bytes) → List (Bytes × Except GoError Bytes)
  | [] => [e]
  | x :: xs => if bytesLt e.1 x.1 then e :: x :: xs else x :: insertByKey e xs

/-- The entries of a map in the order of their keys. -/
def sortByKey : List (Bytes × Except GoError Bytes) → List (Bytes × Except GoError Bytes)
  | [] => []
  | e :: rest => insertByKey e (sortByKey rest)

/-- The members of a JSON object from sorted entries: the first entry whose
value failed to encode ends the encoding with its error. -/
def writeMembers : Bool → List (Bytes × Except GoError Bytes) → Except GoError Bytes
  | _, [] => .ok []
  | first, (k, v) :: rest =>
    match v with
    | .error err => .error err
    | .ok enc =>
      match writeMembers false rest with
      | .error err => .error err
      | .ok tail => .ok ((if first then [] else [44]) ++ appendString k ++ 58 :: enc ++ tail)

/-- The elements of a JSON array. -/
def writeElems : Bool → List (Except GoError Bytes) → Except GoError Bytes
  | _, [] => .ok []
  | first, v :: rest =>
    match v with
    | .error err => .error err
    | .ok enc =>
      match writeElems false rest with
      | .error err => .error err
      | .ok tail => .ok ((if first then [] else [44]) ++ enc ++ tail)

mutual
/-- The encoding of one value by `encoding/json`. -/
def encodeValue : GoValue → Except GoError Bytes
  | .nil => .ok (utf8 "null")
  | .bool b => .ok (if b then utf8 "true" else utf8 "false")
  | .string s => .ok (appendString s)
  | .map entries =>
    match writeMembers true (sortByKey (encodeEntries entries)) with
    | .error err => .error err
    | .ok members => .ok (123 :: members ++ [125])
  | .slice elems =>
    match writeElems true (encodeElems elems) with
    | .error err => .error err
    | .ok items => .ok (91 :: items ++ [93])
  | .chan => .error ⟨utf8 "json: unsupported type: chan int"⟩
/-- The encodings of the values of a map, each with its key. -/
def encodeEntries : List (Bytes × GoValue) → List (Bytes × Except GoError Bytes)
  | [] => []
  | (k, v) :: rest => (k, encodeValue v) :: encodeEntries rest
/-- The encodings of the elements of a slice. -/
def encodeElems : List GoValue → List (Except GoError Bytes)
  | [] => []
  | v :: rest => encodeValue v :: encodeElems rest
end

/-- Go's `json.Marshal` on the values of `GoValue`. -/
def Marshal (v : GoValue) : Except GoError Bytes :=
  encodeValue v

/-- JSON white space is skipped. -/
def skipSpace : Bytes → Bytes
  | [] => []
  | b :: rest => if b == 32 || b == 9 || b == 10 || b == 13 then skipSpace rest else b :: rest

/-- The value of a hexadecimal digit. -/
def hexValue (b : Byte) : Option Nat :=
  if 48 ≤ b && b ≤ 57 then some (b - 48)
  else if 97 ≤ b && b ≤ 102 then some (b - 87)
  else if 65 ≤ b && b ≤ 70 then some (b - 55)
  else none

/-- The four hexadecimal digits of a `\u` escape (the digits of `getu4`). -/
def hex4 : Bytes → Option (Nat × Bytes)
  | a :: b :: c :: d :: rest =>
    match hexValue a, hexValue b, hexValue c, hexValue d with
    | some x, some y, some z, some t => some (x * 4096 + y * 256 + z * 16 + t, rest)
    | _, _, _, _ => none
  | _ => none

/-- The byte a single-letter escape stands for. -/
def simpleEscape (c : Byte) : Option Byte :=
  if c == 34 || c == 92 || c == 47 then some c
  else if c == 98 then some 8
  else if c == 102 then some 12
  else if c == 110 then some 10
  else if c == 114 then some 13
  else if c == 116 then some 9
  else none

/-- Decoded bytes are put in front of the rest of a decoded string. -/
def withDecoded (pre : Bytes) : Option (Bytes × Bytes) → Option (Bytes × Bytes)
  | none => none
  | some (s, rest) => some (pre ++ s, rest)

/-- The contents of a JSON string after its opening quote, decoded as
`unquote` of `encoding/json` does, and the input after the closing quote. -/
def parseString : Nat → Bytes → Option (Bytes × Bytes)
  | 0, _ => none
  | _, [] => none
  | fuel + 1, b :: rest =>
    if b == 34 then some ([], rest)
    else if b == 92 then
      match rest with
      | [] => none
      | c :: rest1 =>
        if c == 117 then
          match hex4 rest1 with
          | none => none
          | some (rr, rest2) =>
            if 0xD800 ≤ rr && rr < 0xE000 then
              match rest2 with
              | 92 :: 117 :: rest3 =>
                match hex4 rest3 with
                | some (rr1, rest4) =>
                  if rr < 0xDC00 && 0xDC00 ≤ rr1 && rr1 < 0xE000 then
                    withDecoded (encodeRune ((rr - 0xD800) * 0x400 + (rr1 - 0xDC00) + 0x10000))
                      (parseString fuel rest4)
                  else withDecoded [0xEF, 0xBF, 0xBD] (parseString fuel rest2)
                | none => withDecoded [0xEF, 0xBF, 0xBD] (parseString fuel rest2)
              | _ => withDecoded [0xEF, 0xBF, 0xBD] (parseString fuel rest2)
            else withDecoded (encodeRune rr) (parseString fuel rest2)
        else
          match simpleEscape c with
          | none => none
          | some d => withDecoded [d] (parseString fuel rest1)
    else if b < 0x20 then none
    else if b < 0x80 then withDecoded [b] (parseString fuel rest)
    else
      let (c, size) := decodeRune (b :: rest)
      if c == 0xFFFD && size == 1 then withDecoded [0xEF, 0xBF, 0xBD] (parseString fuel rest)
      else withDecoded ((b :: rest).take size) (parseString fuel (rest.drop (size - 1)))

/-- The assignment `m[key] = v` on a map: a key already present keeps its
place and takes the new value. -/
def setEntry : List (Bytes × GoValue) → Bytes → GoValue → List (Bytes × GoValue)
  | [], key, v => [(key, v)]
  | (k, x) :: rest, key, v =>
    if k == key then (k, v) :: rest else (k, x) :: setEntry rest key v

mutual
/-- One JSON value at the head of the input and the input after it. -/
def parseValue : Nat → Bytes → Option (GoValue × Bytes)
  | 0, _ => none
  | fuel + 1, input =>
    match skipSpace input with
    | 123 :: rest =>
      match skipSpace rest with
      | 125 :: rest1 => some (.map [], rest1)
      | _ =>
        match parseMembers fuel rest [] with
        | none => none
        | some (entries, rest1) => some (.map entries, rest1)
    | 91 :: rest =>
      match skipSpace rest with
      | 93 :: rest1 => some (.slice [], rest1)
      | _ =>
        match parseElems fuel rest with
        | none => none
        | some (elems, rest1) => some (.slice elems, rest1)
    | 34 :: rest =>
      match parseString fuel rest with
      | none => none
      | some (s, rest1) => some (.string s, rest1)
    | 116 :: 114 :: 117 :: 101 :: rest => some (.bool true, rest)
    | 102 :: 97 :: 108 :: 115 :: 101 :: rest => some (.bool false, rest)
    | 110 :: 117 :: 108 :: 108 :: rest => some (.nil, rest)
    | _ => none
/-- The members of a JSON object after its opening brace, up to and with the
closing brace. -/
def parseMembers : Nat → Bytes → List (Bytes × GoValue) →
    Option (List (Bytes × GoValue) × Bytes)
  | 0, _, _ => none
  | fuel + 1, input, acc =>
    match skipSpace input with
    | 34 :: rest =>
      match parseString fuel rest with
      | none => none
      | some (key, rest1) =>
        match skipSpace rest1 with
        | 58 :: rest2 =>
          match parseValue fuel rest2 with
          | none => none
          | some (v, rest3) =>
            match skipSpace rest3 with
            | 44 :: rest4 => parseMembers fuel rest4 (setEntry acc key v)
            | 125 :: rest4 => some (setEntry acc key v, rest4)
            | _ => none
        | _ => none
    | _ => none
/-- The elements of a JSON array after its opening bracket, up to and with
the closing bracket. -/
def parseElems : Nat → Bytes → Option (List GoValue × Bytes)
  | 0, _ => none
  | fuel + 1, input =>
    match parseValue fuel input with
    | none => none
    | some (v, rest) =>
      match skipSpace rest with
      | 44 :: rest1 =>
        match parseElems fuel rest1 with
        | none => none
        | some (vs, rest2) => some (v :: vs, rest2)
      | 93 :: rest1 => some ([v], rest1)
      | _ => none
end

/-- Go's `json.Unmarshal` into an `interface{}`: the value the whole input
denotes, or `none` where Go returns an error. -/
def Unmarshal (data : Bytes) : Option GoValue :=
  match parseValue (data.length + 1) data with
  | none => none
  | some (v, rest) => if (skipSpace rest).isEmpty then some v else none

/-- Go's `json.Valid` on the fragment: the input is a JSON text without
numbers. -/
def Valid (data : Bytes) : Bool :=
  (Unmarshal data).isSome

/-! ## `net/http` -/

/-- An `http.Header`: keys with their lists of values. -/
abbrev Header := List (Bytes × List Bytes)

/-- The byte is allowed in a header field name (an HTTP token character). -/
def validHeaderFieldByte (c : Byte) : Bool :=
  (48 ≤ c && c ≤ 57) || (65 ≤ c && c ≤ 90) || (97 ≤ c && c ≤ 122) ||
    [33, 35, 36, 37, 38, 39, 42, 43, 45, 46, 94, 95, 96, 124, 126].contains c

/-- The loop of `textproto.CanonicalMIMEHeaderKey`: the first letter and each
letter after a hyphen in upper case, the other letters in lower case. -/
def canonicalizeFrom (upper : Bool) : Bytes → Bytes
  | [] => []
  | c :: rest =>
    let c1 :=
      if upper && 97 ≤ c && c ≤ 122 then c - 32
      else if !upper && 65 ≤ c && c ≤ 90 then c + 32
      else c
    c1 :: canonicalizeFrom (c1 == 45) rest

/-- Go's `textproto.CanonicalMIMEHeaderKey`: a key with a byte that is not a
token character is returned unchanged. -/
def CanonicalMIMEHeaderKey (key : Bytes) : Bytes :=
  if key.all validHeaderFieldByte then canonicalizeFrom true key else key

/-- Go's `Header.Set`: the values under the canonical key are replaced by the
single value. -/
def Header.Set (h : Header) (key value : Bytes) : Header :=
  (CanonicalMIMEHeaderKey key, [value]) ::
    h.filter (fun kv => kv.1 != CanonicalMIMEHeaderKey key)

/-- Go's `Header.Values`: all values stored under the canonical key. -/
def Header.Values (h : Header) (key : Bytes) : List Bytes :=
  match h.lookup (CanonicalMIMEHeaderKey key) with
  | some vs => vs
  | none => []

/-- An `http.Request`, with the fields `main` sets. -/
structure Request where
  Method : Bytes
  URL : Bytes
  Header : Header
  Body : Bytes
deriving DecidableEq, Repr

/-- A response body stream: the bytes the peer delivers, and the error that
ends the stream early, if any. -/
structure BodyStream where
  received : Bytes
  fault : Option GoError
deriving DecidableEq, Repr

/-- An `http.Response`, with the fields in play. -/
structure Response where
  StatusCode : Int
  Body : BodyStream
deriving DecidableEq, Repr

/-- Go's `ioutil.ReadAll`: the bytes read before the end of the stream or the
first error, and that error. -/
def ReadAll (r : BodyStream) : Bytes × Option GoError :=
  (r.received, r.fault)

/-! ## The environment of a run -/

/-- The behaviour of the library calls whose outcome `main` branches on. -/
structure World where
  /-- The result of `json.Marshal`. -/
  Marshal : GoValue → Except GoError Bytes
  /-- The error of `http.NewRequest` for a method and URL, if it fails. -/
  NewRequestFault : Bytes → Bytes → Option GoError
  /-- The result of `client.Do`: the network and the server. -/
  Do : Request → Except GoError Response

/-- Go's `http.NewRequest` with a `bytes.Buffer` body. -/
def NewRequest (w : World) (method url body : Bytes) : Except GoError Request :=
  match w.NewRequestFault method url with
  | some err => .error err
  | none => .ok { Method := method, URL := url, Header := [], Body := body }

/-! ## `fmt.Println` -/

/-- The operands of a `Println`, separated by single spaces. -/
def joinSpace : List Bytes → Bytes
  | [] => []
  | [a] => a
  | a :: rest => a ++ 32 :: joinSpace rest

/-- The bytes `fmt.Println` writes for operands already formatted as text. -/
def Println (operands : List Bytes) : Bytes :=
  joinSpace operands ++ [10]

/-! ## Events and `main` -/

/-- What a run of `main` does, as seen from outside the function. -/
inductive Event where
  /-- A call `http.NewRequest(method, url, bytes.NewBuffer(body))`. -/
  | newRequest (method url body : Bytes)
  /-- A call `client.Do(req)`. -/
  | send (req : Request)
  /-- A call `ioutil.ReadAll` on a response body. -/
  | readAll (body : BodyStream)
  /-- A call `Close` on a response body. -/
  | close (body : BodyStream)
  /-- One write to standard output. -/
  | stdout (text : Bytes)
deriving DecidableEq, Repr

/-- The payload built at the top of `main`. -/
def requestData : GoValue :=
  .map [(utf8 "message", .string (utf8 "你好")), (utf8 "stream", .bool false)]

/-- The function `main` of `main.go`: the events of one run, in order. The
deferred `resp.Body.Close()` runs at each return after its registration. -/
def main (w : World) : List Event :=
  match w.Marshal requestData with
  | .error err => [.stdout (Println [utf8 "JSON编码错误:", err.Error])]
  | .ok jsonData =>
    let construct := Event.newRequest (utf8 "POST") (utf8 "http://localhost:8000/api/chat") jsonData
    match NewRequest w (utf8 "POST") (utf8 "http://localhost:8000/api/chat") jsonData with
    | .error err => [construct, .stdout (Println [utf8 "创建请求错误:", err.Error])]
    | .ok req0 =>
      let req := { req0 with
        Header := req0.Header.Set (utf8 "Content-Type") (utf8 "application/json") }
      match w.Do req with
      | .error err => [construct, .send req, .stdout (Println [utf8 "发送请求错误:", err.Error])]
      | .ok resp =>
        let deferred := [Event.close resp.Body]
        match ReadAll resp.Body with
        | (_, some err) =>
          [construct, .send req, .readAll resp.Body,
            .stdout (Println [utf8 "读取响应错误:", err.Error])] ++ deferred
        | (body, none) =>
          [construct, .send req, .readAll resp.Body,
            .stdout (Println [utf8 "响应:", body])] ++ deferred


/-! ## Observations on a run -/

/-- The request `main` hands to `client.Do` when `json.Marshal` returned
`jsonData`: the request of `http.NewRequest` with the header set on it. -/
def chatRequest (jsonData : Bytes) : Request :=
  { Method := utf8 "POST", URL := utf8 "http://localhost:8000/api/chat",
    Header := Header.Set [] (utf8 "Content-Type") (utf8 "application/json"),
    Body := jsonData }

/-- The texts written to standard output, one per write, in order. -/
def stdoutWrites : List Event → List Bytes
  | [] => []
  | .stdout text :: rest => text :: stdoutWrites rest
  | _ :: rest => stdoutWrites rest

/-- The byte stream standard output receives. -/
def stdoutBytes (run : List Event) : Bytes :=
  (stdoutWrites run).foldr (fun text out => text ++ out) []

/-- The calls of `http.NewRequest`: method, URL and body. -/
def constructions : List Event → List (Bytes × Bytes × Bytes)
  | [] => []
  | .newRequest method url body :: rest => (method, url, body) :: constructions rest
  | _ :: rest => constructions rest

/-- The requests handed to the HTTP client, in order. -/
def sentRequests : List Event → List Request
  | [] => []
  | .send req :: rest => req :: sentRequests rest
  | _ :: rest => sentRequests rest

/-- The response bodies `ioutil.ReadAll` was called on, in order. -/
def readAttempts : List Event → List BodyStream
  | [] => []
  | .readAll body :: rest => body :: readAttempts rest
  | _ :: rest => readAttempts rest

/-- The response bodies closed, in order. -/
def closes : List Event → List BodyStream
  | [] => []
  | .close body :: rest => body :: closes rest
  | _ :: rest => closes rest

/-- The number of releases of a response body. -/
def releaseCount (run : List Event) : Nat :=
  (closes run).length

/-- Every close of a body comes after a read attempt on that body; `seen`
holds the bodies read so far. -/
def closesAfterReads (seen : List BodyStream) : List Event → Bool
  | [] => true
  | .readAll body :: rest => closesAfterReads (body :: seen) rest
  | .close body :: rest => seen.contains body && closesAfterReads seen rest
  | _ :: rest => closesAfterReads seen rest

/-- The number of lines in an output: its newline bytes. -/
def lineCount (out : Bytes) : Nat :=
  out.count 10

/-- The label in front of the response text. -/
def responseLabel : Bytes := utf8 "响应:"

/-- The labels of the four diagnostics. -/
def diagnosticLabels : List Bytes :=
  [utf8 "JSON编码错误:", utf8 "创建请求错误:", utf8 "发送请求错误:", utf8 "读取响应错误:"]

/-- The written text is the response line: it begins with the response label. -/
def isResponseLine (text : Bytes) : Bool :=
  responseLabel.isPrefixOf text

/-- The written text is one of the four diagnostics: it begins with the label
of one. -/
def isDiagnostic (text : Bytes) : Bool :=
  diagnosticLabels.any (fun label => label.isPrefixOf text)

/-- The ways a run of `main` ends. -/
inductive ExitPath where
  | encodingError
  | requestConstructionError
  | networkError
  | readError
  | success
deriving DecidableEq, Repr

/-- The way the run in a world ends: the first step that fails, if any. -/
def exitPath (w : World) : ExitPath :=
  match w.Marshal requestData with
  | .error _ => .encodingError
  | .ok jsonData =>
    match w.NewRequestFault (utf8 "POST") (utf8 "http://localhost:8000/api/chat") with
    | some _ => .requestConstructionError
    | none =>
      match w.Do (chatRequest jsonData) with
      | .error _ => .networkError
      | .ok resp =>
        match resp.Body.fault with
        | some _ => .readError
        | none => .success

/-- The label of the text written on an exit path. -/
def exitLabel : ExitPath → Bytes
  | .encodingError => utf8 "JSON编码错误:"
  | .requestConstructionError => utf8 "创建请求错误:"
  | .networkError => utf8 "发送请求错误:"
  | .readError => utf8 "读取响应错误:"
  | .success => utf8 "响应:"

/-- The world in which every response carries the status code given and is
otherwise as before. -/
def World.withStatus (w : World) (status : Int) : World :=
  { w with Do := fun req =>
      match w.Do req with
      | .error err => .error err
      | .ok resp => .ok { resp with StatusCode := status } }

/-- A world with `json.Marshal` of `encoding/json`. -/
def goWorld (newRequestFault : Bytes → Bytes → Option GoError)
    (doRequest : Request → Except GoError Response) : World :=
  { Marshal := Marshal, NewRequestFault := newRequestFault, Do := doRequest }

/-- A world in which the request is built and `client.Do` has the outcome
given. -/
def mockWorld (outcome : Except GoError Response) : World :=
  goWorld (fun _ _ => none) (fun _ => outcome)

/-- The reply of a mock server: status 200 with body `OK`. -/
def okResponse : Response := ⟨200, ⟨utf8 "OK", none⟩⟩

/-- The error of `client.Do` for a host that refuses the connection. -/
def refusedError : GoError :=
  ⟨utf8 "Post \"http://localhost:8000/api/chat\": dial tcp 127.0.0.1:8000: connect: connection refused"⟩

/-- The reply of a server that closes the connection in the middle of the
body: the bytes received so far and the read error. -/
def truncatedResponse : Response := ⟨200, ⟨utf8 "\x7b\"rep", some ⟨utf8 "unexpected EOF"⟩⟩⟩

/-- The reply of a server whose body has two lines. -/
def twoLineResponse : Response := ⟨200, ⟨utf8 "\x7b\"reply\":\"您好!\"\x7d\nbye", none⟩⟩

/-! ## The HTTP client on the network

What `client.Do` of a zero-value `http.Client` does with a request built by
`http.NewRequest` from a `bytes.Buffer`: it sends the request through the
transport and follows redirects, one round trip per hop, until a reply is
final or the default policy stops it. -/

/-- One request on the wire: its method, URL and body. -/
structure Hop where
  Method : Bytes
  URL : Bytes
  Body : Bytes
deriving DecidableEq, Repr

/-- The reply to one round trip: the response, and the URL its `Location`
header resolves to against the URL of the request, `none` when the header is
absent or empty. -/
structure Reply where
  response : Response
  location : Option Bytes
deriving DecidableEq, Repr

/-- The transport with the network and the servers behind it: the outcome of
the round trip that carries a hop, given the number of round trips the call
has made before. -/
abbrev Transport := Nat → Hop → Except GoError Reply

/-- The function `redirectBehavior` of `net/http` for a request that can
replay its body: the method of the next hop and whether it carries the body,
or `none` when the status is not one the client follows. -/
def redirectBehavior (reqMethod : Bytes) (status : Int) : Option (Bytes × Bool) :=
  if status = 301 ∨ status = 302 ∨ status = 303 then
    some (if reqMethod ≠ utf8 "GET" ∧ reqMethod ≠ utf8 "HEAD" then utf8 "GET" else reqMethod,
      false)
  else if status = 307 ∨ status = 308 then some (reqMethod, true)
  else none

/-- The ASCII lower case of a byte. -/
def toLowerByte (c : Byte) : Byte :=
  if 65 ≤ c && c ≤ 90 then c + 32 else c

/-- The function `urlErrorOp` of `net/http`: the method with its first letter
kept and the others in lower case. -/
def urlErrorOp (method : Bytes) : Bytes :=
  match method with
  | [] => utf8 "Get"
  | c :: rest => c :: rest.map toLowerByte

/-- The text of the `url.Error` that `client.Do` returns: operation, quoted
URL and cause (for a URL of printable characters without quotes). -/
def urlError (op url : Bytes) (cause : GoError) : GoError :=
  ⟨op ++ 32 :: 34 :: url ++ 34 :: 58 :: 32 :: cause.Error⟩

/-- The loop of `Client.do`: the hop is sent; a reply that is a redirect with
a location is followed with a new hop, unless ten requests have been made,
which the default `CheckRedirect` refuses. `left + 1` requests may still be
made, `made` have been made. The result of the call and the hops sent. -/
def followRedirects (t : Transport) (first : Hop) :
    Nat → Nat → Hop → Except GoError Response × List Hop
  | 0, _, _ => (.error ⟨utf8 "stopped after 10 redirects"⟩, [])
  | left + 1, made, hop =>
    match t made hop with
    | .error cause => (.error (urlError (urlErrorOp first.Method) hop.URL cause), [hop])
    | .ok reply =>
      match redirectBehavior hop.Method reply.response.StatusCode, reply.location with
      | some (method, includeBody), some loc =>
        if left = 0 then
          (.error (urlError (urlErrorOp first.Method) loc ⟨utf8 "stopped after 10 redirects"⟩),
            [hop])
        else
          let next := followRedirects t first left (made + 1)
            ⟨method, loc, if includeBody then first.Body else []⟩
          (next.1, hop :: next.2)
      | _, _ => (.ok reply.response, [hop])

/-- Go's `client.Do` over a transport: the result, and the hops sent. -/
def clientDo (t : Transport) (req : Request) : Except GoError Response × List Hop :=
  followRedirects t ⟨req.Method, req.URL, req.Body⟩ 10 0 ⟨req.Method, req.URL, req.Body⟩

/-- The reply to the hop is a redirect that the client follows. -/
def isFollowed (method : Bytes) : Except GoError Reply → Bool
  | .error _ => false
  | .ok reply =>
    (redirectBehavior method reply.response.StatusCode).isSome && reply.location.isSome

/-- The part of a URL authority after the user information. -/
def afterUserinfo (authority : Bytes) : Bytes :=
  (authority.reverse.takeWhile (fun c => c != 64)).reverse

/-- The key under which the transport keeps the connections to the server of
a URL `scheme://host[:port]/...`: the scheme and Go's `canonicalAddr`, the
host with the port given or the default port of the scheme. -/
def connectionKey (url : Bytes) : Bytes :=
  let scheme := (url.takeWhile (fun c => c != 58)).map toLowerByte
  let authority := (url.drop (scheme.length + 3)).takeWhile
    (fun c => c != 47 && c != 63 && c != 35)
  let hostport := afterUserinfo authority
  let host := (hostport.takeWhile (fun c => c != 58)).map toLowerByte
  let given := hostport.drop (host.length + 1)
  let port :=
    if !given.isEmpty then given
    else if scheme == utf8 "https" then utf8 "443"
    else if scheme == utf8 "http" then utf8 "80"
    else []
  scheme ++ utf8 "://" ++ host ++ 58 :: port

/-- The connections hops need, in order: a hop to a server the run has no
connection to yet needs a new one, a hop to a server already connected reuses
the idle connection. `seen` holds the keys of the connections open. -/
def freshConnections (seen : List Bytes) : List Hop → List Bytes
  | [] => []
  | hop :: rest =>
    if seen.contains (connectionKey hop.URL) then freshConnections seen rest
    else connectionKey hop.URL :: freshConnections (connectionKey hop.URL :: seen) rest

/-- The world in which `client.Do` is Go's client over the transport. -/
def World.overTransport (w : World) (t : Transport) : World :=
  { w with Do := fun req => (clientDo t req).1 }

/-- The round trips of a run over the transport: the hops of its calls of
`client.Do`. -/
def roundTrips (t : Transport) (run : List Event) : List Hop :=
  (sentRequests run).flatMap (fun req => (clientDo t req).2)

/-- The outbound connections a run over the transport opens, by their keys. -/
def connections (t : Transport) (run : List Event) : List Bytes :=
  freshConnections [] (roundTrips t run)

/-- A network in which the server at `localhost:8000` answers 307 with a
location on another port, and the server there answers 200 with body `OK`. -/
def redirectingTransport : Transport := fun _ hop =>
  if hop.URL = utf8 "http://localhost:8000/api/chat" then
    .ok ⟨⟨307, ⟨[], none⟩⟩, some (utf8 "http://localhost:9000/api/chat")⟩
  else .ok ⟨okResponse, none⟩

/-- The world of a run against the redirecting network. -/
def redirectedWorld : World :=
  (mockWorld (.ok okResponse)).overTransport redirectingTransport

/-- A network in which the server answers every request with 200 and body
`OK`. -/
def plainTransport : Transport := fun _ _ => .ok ⟨okResponse, none⟩

/-- The bytes `json.Marshal` returns for the payload. -/
def payloadJSON : Bytes := utf8 "\x7b\"message\":\"你好\",\"stream\":false\x7d"

/-! ## The runs of `main`, path by path -/

theorem responseLabel_bytes : utf8 "响应:" = [229, 147, 141, 229, 186, 148, 58] := by decide

theorem encodingLabel_bytes :
    utf8 "JSON编码错误:" =
      [74, 83, 79, 78, 231, 188, 150, 231, 160, 129, 233, 148, 153, 232, 175, 175, 58] := by
  decide

theorem constructLabel_bytes :
    utf8 "创建请求错误:" =
      [229, 136, 155, 229, 187, 186, 232, 175, 183, 230, 177, 130, 233, 148, 153, 232, 175,
        175, 58] := by
  decide

theorem sendLabel_bytes :
    utf8 "发送请求错误:" =
      [229, 143, 145, 233, 128, 129, 232, 175, 183, 230, 177, 130, 233, 148, 153, 232, 175,
        175, 58] := by
  decide

theorem readLabel_bytes :
    utf8 "读取响应错误:" =
      [232, 175, 187, 229, 143, 150, 229, 147, 141, 229, 186, 148, 233, 148, 153, 232, 175,
        175, 58] := by
  decide

theorem Println_pair (label detail : Bytes) :
    Println [label, detail] = label ++ 32 :: detail ++ [10] := by
  simp [Println, joinSpace]

theorem main_of_encoding_error (w : World) (e : GoError)
    (hm : w.Marshal requestData = .error e) :
    main w = [.stdout (Println [utf8 "JSON编码错误:", e.Error])] := by
  simp [main, hm]

theorem main_of_construct_error (w : World) (jsonData : Bytes) (e : GoError)
    (hm : w.Marshal requestData = .ok jsonData)
    (hn : w.NewRequestFault (utf8 "POST") (utf8 "http://localhost:8000/api/chat") = some e) :
    main w =
      [.newRequest (utf8 "POST") (utf8 "http://localhost:8000/api/chat") jsonData,
        .stdout (Println [utf8 "创建请求错误:", e.Error])] := by
  simp [main, hm, NewRequest, hn]

theorem main_of_send_error (w : World) (jsonData : Bytes) (e : GoError)
    (hm : w.Marshal requestData = .ok jsonData)
    (hn : w.NewRequestFault (utf8 "POST") (utf8 "http://localhost:8000/api/chat") = none)
    (hd : w.Do (chatRequest jsonData) = .error e) :
    main w =
      [.newRequest (utf8 "POST") (utf8 "http://localhost:8000/api/chat") jsonData,
        .send (chatRequest jsonData),
        .stdout (Println [utf8 "发送请求错误:", e.Error])] := by
  unfold chatRequest at hd ⊢
  simp only [main, hm, NewRequest, hn, hd, ReadAll, List.cons_append, List.nil_append]

theorem main_of_read_error (w : World) (jsonData : Bytes) (status : Int) (received : Bytes)
    (e : GoError)
    (hm : w.Marshal requestData = .ok jsonData)
    (hn : w.NewRequestFault (utf8 "POST") (utf8 "http://localhost:8000/api/chat") = none)
    (hd : w.Do (chatRequest jsonData) = .ok ⟨status, ⟨received, some e⟩⟩) :
    main w =
      [.newRequest (utf8 "POST") (utf8 "http://localhost:8000/api/chat") jsonData,
        .send (chatRequest jsonData),
        .readAll ⟨received, some e⟩,
        .stdout (Println [utf8 "读取响应错误:", e.Error]),
        .close ⟨received, some e⟩] := by
  unfold chatRequest at hd ⊢
  simp only [main, hm, NewRequest, hn, hd, ReadAll, List.cons_append, List.nil_append]

theorem main_of_success (w : World) (jsonData : Bytes) (status : Int) (b : Bytes)
    (hm : w.Marshal requestData = .ok jsonData)
    (hn : w.NewRequestFault (utf8 "POST") (utf8 "http://localhost:8000/api/chat") = none)
    (hd : w.Do (chatRequest jsonData) = .ok ⟨status, ⟨b, none⟩⟩) :
    main w =
      [.newRequest (utf8 "POST") (utf8 "http://localhost:8000/api/chat") jsonData,
        .send (chatRequest jsonData),
        .readAll ⟨b, none⟩,
        .stdout (Println [utf8 "响应:", b]),
        .close ⟨b, none⟩] := by
  unfold chatRequest at hd ⊢
  simp only [main, hm, NewRequest, hn, hd, ReadAll, List.cons_append, List.nil_append]

theorem responseLine_not_diagnostic (b : Bytes) :
    isDiagnostic (utf8 "响应:" ++ 32 :: b ++ [10]) = false := by
  simp [isDiagnostic, diagnosticLabels, List.isPrefixOf, responseLabel_bytes, encodingLabel_bytes,
    constructLabel_bytes, sendLabel_bytes, readLabel_bytes]

theorem main_withStatus (w : World) (s : Int) : main (w.withStatus s) = main w := by
  cases hm : w.Marshal requestData with
  | error e =>
    rw [main_of_encoding_error w e hm, main_of_encoding_error (w.withStatus s) e hm]
  | ok jsonData =>
    have hm1 : (w.withStatus s).Marshal requestData = .ok jsonData := hm
    cases hn : w.NewRequestFault (utf8 "POST") (utf8 "http://localhost:8000/api/chat") with
    | some e =>
      rw [main_of_construct_error w jsonData e hm hn,
        main_of_construct_error (w.withStatus s) jsonData e hm1 hn]
    | none =>
      have hn1 : (w.withStatus s).NewRequestFault (utf8 "POST")
          (utf8 "http://localhost:8000/api/chat") = none := hn
      cases hd : w.Do (chatRequest jsonData) with
      | error e =>
        have hd1 : (w.withStatus s).Do (chatRequest jsonData) = .error e := by
          simp [World.withStatus, hd]
        rw [main_of_send_error w jsonData e hm hn hd,
          main_of_send_error (w.withStatus s) jsonData e hm1 hn1 hd1]
      | ok resp =>
        obtain ⟨status, received, fault⟩ := resp
        have hd1 : (w.withStatus s).Do (chatRequest jsonData) = .ok ⟨s, ⟨received, fault⟩⟩ := by
          simp [World.withStatus, hd]
        cases fault with
        | some e =>
          rw [main_of_read_error w jsonData status received e hm hn hd,
            main_of_read_error (w.withStatus s) jsonData s received e hm1 hn1 hd1]
        | none =>
          rw [main_of_success w jsonData status received hm hn hd,
            main_of_success (w.withStatus s) jsonData s received hm1 hn1 hd1]

theorem sentRequests_of_reach (w : World) (jsonData : Bytes)
    (hm : w.Marshal requestData = .ok jsonData)
    (hn : w.NewRequestFault (utf8 "POST") (utf8 "http://localhost:8000/api/chat") = none) :
    sentRequests (main w) = [chatRequest jsonData] := by
  cases hd : w.Do (chatRequest jsonData) with
  | error e => simp [main_of_send_error w jsonData e hm hn hd, sentRequests]
  | ok resp =>
    obtain ⟨status, received, fault⟩ := resp
    cases fault with
    | some e => simp [main_of_read_error w jsonData status received e hm hn hd, sentRequests]
    | none => simp [main_of_success w jsonData status received hm hn hd, sentRequests]

theorem main_of_response (w : World) (jsonData : Bytes) (resp : Response)
    (hm : w.Marshal requestData = .ok jsonData)
    (hn : w.NewRequestFault (utf8 "POST") (utf8 "http://localhost:8000/api/chat") = none)
    (hd : w.Do (chatRequest jsonData) = .ok resp) :
    ∃ text, main w =
      [.newRequest (utf8 "POST") (utf8 "http://localhost:8000/api/chat") jsonData,
        .send (chatRequest jsonData), .readAll resp.Body, .stdout text, .close resp.Body] := by
  obtain ⟨status, received, fault⟩ := resp
  cases fault with
  | some e => exact ⟨_, main_of_read_error w jsonData status received e hm hn hd⟩
  | none => exact ⟨_, main_of_success w jsonData status received hm hn hd⟩

/-- Every run takes one of the five exit paths, and its events are those of
that path. -/
theorem main_shape (w : World) :
    (exitPath w = .encodingError ∧
        ∃ e : GoError, main w = [.stdout (Println [utf8 "JSON编码错误:", e.Error])]) ∨
      (exitPath w = .requestConstructionError ∧
        ∃ (jsonData : Bytes) (e : GoError), main w =
          [.newRequest (utf8 "POST") (utf8 "http://localhost:8000/api/chat") jsonData,
            .stdout (Println [utf8 "创建请求错误:", e.Error])]) ∨
      (exitPath w = .networkError ∧
        ∃ (jsonData : Bytes) (e : GoError), main w =
          [.newRequest (utf8 "POST") (utf8 "http://localhost:8000/api/chat") jsonData,
            .send (chatRequest jsonData),
            .stdout (Println [utf8 "发送请求错误:", e.Error])]) ∨
      (exitPath w = .readError ∧
        ∃ (jsonData received : Bytes) (e : GoError), main w =
          [.newRequest (utf8 "POST") (utf8 "http://localhost:8000/api/chat") jsonData,
            .send (chatRequest jsonData), .readAll ⟨received, some e⟩,
            .stdout (Println [utf8 "读取响应错误:", e.Error]), .close ⟨received, some e⟩]) ∨
      (exitPath w = .success ∧
        ∃ jsonData b : Bytes, main w =
          [.newRequest (utf8 "POST") (utf8 "http://localhost:8000/api/chat") jsonData,
            .send (chatRequest jsonData), .readAll ⟨b, none⟩,
            .stdout (Println [utf8 "响应:", b]), .close ⟨b, none⟩]) := by
  cases hm : w.Marshal requestData with
  | error e =>
    exact Or.inl ⟨by simp [exitPath, hm], e, main_of_encoding_error w e hm⟩
  | ok jsonData =>
    cases hn : w.NewRequestFault (utf8 "POST") (utf8 "http://localhost:8000/api/chat") with
    | some e =>
      exact Or.inr (Or.inl ⟨by simp [exitPath, hm, hn], jsonData, e,
        main_of_construct_error w jsonData e hm hn⟩)
    | none =>
      cases hd : w.Do (chatRequest jsonData) with
      | error e =>
        exact Or.inr (Or.inr (Or.inl ⟨by simp [exitPath, hm, hn, hd], jsonData, e,
          main_of_send_error w jsonData e hm hn hd⟩))
      | ok resp =>
        obtain ⟨status, received, fault⟩ := resp
        cases fault with
        | some e =>
          exact Or.inr (Or.inr (Or.inr (Or.inl ⟨by simp [exitPath, hm, hn, hd], jsonData,
            received, e, main_of_read_error w jsonData status received e hm hn hd⟩)))
        | none =>
          exact Or.inr (Or.inr (Or.inr (Or.inr ⟨by simp [exitPath, hm, hn, hd], jsonData,
            received, main_of_success w jsonData status received hm hn hd⟩)))

theorem stdoutWrites_main (w : World) :
    ∃ detail : Bytes, stdoutWrites (main w) = [exitLabel (exitPath w) ++ 32 :: detail ++ [10]] := by
  rcases main_shape w with ⟨hp, e, hrun⟩ | ⟨hp, _, e, hrun⟩ | ⟨hp, _, e, hrun⟩ |
    ⟨hp, _, _, e, hrun⟩ | ⟨hp, _, b, hrun⟩
  · exact ⟨e.Error, by simp [hp, hrun, stdoutWrites, Println_pair, exitLabel]⟩
  · exact ⟨e.Error, by simp [hp, hrun, stdoutWrites, Println_pair, exitLabel]⟩
  · exact ⟨e.Error, by simp [hp, hrun, stdoutWrites, Println_pair, exitLabel]⟩
  · exact ⟨e.Error, by simp [hp, hrun, stdoutWrites, Println_pair, exitLabel]⟩
  · exact ⟨b, by simp [hp, hrun, stdoutWrites, Println_pair, exitLabel]⟩

theorem exitLabel_bytes (p : ExitPath) :
    exitLabel p =
      match p with
      | .encodingError =>
        [74, 83, 79, 78, 231, 188, 150, 231, 160, 129, 233, 148, 153, 232, 175, 175, 58]
      | .requestConstructionError =>
        [229, 136, 155, 229, 187, 186, 232, 175, 183, 230, 177, 130, 233, 148, 153, 232, 175,
          175, 58]
      | .networkError =>
        [229, 143, 145, 233, 128, 129, 232, 175, 183, 230, 177, 130, 233, 148, 153, 232, 175,
          175, 58]
      | .readError =>
        [232, 175, 187, 229, 143, 150, 229, 147, 141, 229, 186, 148, 233, 148, 153, 232, 175,
          175, 58]
      | .success => [229, 147, 141, 229, 186, 148, 58] := by
  cases p <;> decide

theorem labels_bytes :
    responseLabel :: diagnosticLabels =
      [[229, 147, 141, 229, 186, 148, 58],
        [74, 83, 79, 78, 231, 188, 150, 231, 160, 129, 233, 148, 153, 232, 175, 175, 58],
        [229, 136, 155, 229, 187, 186, 232, 175, 183, 230, 177, 130, 233, 148, 153, 232, 175,
          175, 58],
        [229, 143, 145, 233, 128, 129, 232, 175, 183, 230, 177, 130, 233, 148, 153, 232, 175,
          175, 58],
        [232, 175, 187, 229, 143, 150, 229, 147, 141, 229, 186, 148, 233, 148, 153, 232, 175,
          175, 58]] := by
  decide

theorem one_label_matches (p : ExitPath) (detail : Bytes) :
    ((responseLabel :: diagnosticLabels).filter
      (fun label => label.isPrefixOf (exitLabel p ++ 32 :: detail ++ [10]))).length = 1 := by
  rw [labels_bytes, exitLabel_bytes]
  cases p <;> simp [List.filter, List.isPrefixOf]

theorem lineCount_message (p : ExitPath) (detail : Bytes) :
    lineCount (exitLabel p ++ 32 :: detail ++ [10]) = detail.count 10 + 1 := by
  rw [exitLabel_bytes]
  cases p <;> simp [lineCount, List.count_cons]

theorem constructions_of_marshal (w : World) (jsonData : Bytes)
    (hm : w.Marshal requestData = .ok jsonData) :
    constructions (main w) =
      [(utf8 "POST", utf8 "http://localhost:8000/api/chat", jsonData)] := by
  cases hn : w.NewRequestFault (utf8 "POST") (utf8 "http://localhost:8000/api/chat") with
  | some e => simp [main_of_construct_error w jsonData e hm hn, constructions]
  | none =>
    cases hd : w.Do (chatRequest jsonData) with
    | error e => simp [main_of_send_error w jsonData e hm hn hd, constructions]
    | ok resp =>
      obtain ⟨text, hrun⟩ := main_of_response w jsonData resp hm hn hd
      simp [hrun, constructions]

theorem exitPath_of_marshal (w : World) (jsonData : Bytes)
    (hm : w.Marshal requestData = .ok jsonData) : exitPath w ≠ .encodingError := by
  unfold exitPath
  rw [hm]
  simp only []
  split
  · simp
  · split
    · simp
    · split <;> simp

/-! ## The round trips of `client.Do` -/

theorem followRedirects_length (t : Transport) (first : Hop) :
    ∀ (left made : Nat) (hop : Hop), (followRedirects t first left made hop).2.length ≤ left := by
  intro left
  induction left with
  | zero => intro made hop; simp [followRedirects]
  | succ left ih =>
    intro made hop
    unfold followRedirects
    cases t made hop with
    | error cause => simp
    | ok reply =>
      simp only []
      split
      · split
        · simp
        · simp only [List.length_cons]
          exact Nat.succ_le_succ (ih _ _)
      · simp

theorem clientDo_length (t : Transport) (req : Request) : (clientDo t req).2.length ≤ 10 :=
  followRedirects_length t _ 10 0 _

theorem clientDo_unfollowed (t : Transport) (req : Request)
    (hfinal : isFollowed req.Method (t 0 ⟨req.Method, req.URL, req.Body⟩) = false) :
    (clientDo t req).2 = [⟨req.Method, req.URL, req.Body⟩] := by
  unfold clientDo followRedirects
  cases hreply : t 0 ⟨req.Method, req.URL, req.Body⟩ with
  | error cause => simp
  | ok reply =>
    rw [hreply] at hfinal
    simp only []
    split
    · rename_i method includeBody loc hbehaviour hloc
      simp [isFollowed, hbehaviour, hloc] at hfinal
    · simp

theorem freshConnections_length (seen : List Bytes) (hops : List Hop) :
    (freshConnections seen hops).length ≤ hops.length := by
  induction hops generalizing seen with
  | nil => simp [freshConnections]
  | cons hop rest ih =>
    unfold freshConnections
    split
    · exact Nat.le_succ_of_le (ih seen)
    · simpa using ih (connectionKey hop.URL :: seen)

theorem sentRequests_main (w : World) :
    sentRequests (main w) = [] ∨ ∃ req : Request, sentRequests (main w) = [req] := by
  rcases main_shape w with ⟨_, e, hrun⟩ | ⟨_, _, e, hrun⟩ | ⟨_, _, e, hrun⟩ |
    ⟨_, _, _, e, hrun⟩ | ⟨_, _, b, hrun⟩ <;>
  simp [hrun, sentRequests]

theorem roundTrips_length (t : Transport) (w : World) :
    (roundTrips t (main w)).length ≤ 10 := by
  rcases sentRequests_main w with hnone | ⟨req, hone⟩
  · simp [roundTrips, hnone]
  · simpa [roundTrips, hone] using clientDo_length t req

theorem roundTrips_unfollowed (t : Transport) (w : World)
    (hfinal : ∀ req ∈ sentRequests (main w),
      isFollowed req.Method (t 0 ⟨req.Method, req.URL, req.Body⟩) = false) :
    (roundTrips t (main w)).length ≤ 1 := by
  rcases sentRequests_main w with hnone | ⟨req, hone⟩
  · simp [roundTrips, hnone]
  · have hreq : isFollowed req.Method (t 0 ⟨req.Method, req.URL, req.Body⟩) = false :=
      hfinal req (by simp [hone])
    simp [roundTrips, hone, clientDo_unfollowed t req hreq]

/-! ## The claims -/

/-- C1: when serialization, request construction, sending and reading all
succeed, with any status code and body `b`, `main` writes to standard output
exactly the label `响应:`, a space, the bytes of `b` and a newline, in one
write that is none of the four diagnostics; and changing the status code of
the response changes nothing in the output. -/
theorem main_prints_response_verbatim (w : World) (jsonData : Bytes) (status : Int) (b : Bytes)
    (hm : w.Marshal requestData = .ok jsonData)
    (hn : w.NewRequestFault (utf8 "POST") (utf8 "http://localhost:8000/api/chat") = none)
    (hd : w.Do (chatRequest jsonData) = .ok ⟨status, ⟨b, none⟩⟩) :
    stdoutBytes (main w) = utf8 "响应:" ++ [32] ++ b ++ [10] ∧
      stdoutWrites (main w) = [utf8 "响应:" ++ [32] ++ b ++ [10]] ∧
      (∀ text ∈ stdoutWrites (main w), isDiagnostic text = false) ∧
      ∀ s : Int, stdoutBytes (main (w.withStatus s)) = stdoutBytes (main w) := by
  have hrun := main_of_success w jsonData status b hm hn hd
  refine ⟨?_, ?_, ?_, ?_⟩
  · simp [hrun, stdoutBytes, stdoutWrites, Println_pair]
  · simp [hrun, stdoutWrites, Println_pair]
  · intro text htext
    have htext1 : text = utf8 "响应:" ++ 32 :: b ++ [10] := by
      simpa [hrun, stdoutWrites, Println_pair] using htext
    rw [htext1]
    exact responseLine_not_diagnostic b
  · intro s
    rw [main_withStatus]

/-- Witness of C1: a mock server that replies 200 with body `OK`. -/
theorem main_prints_response_verbatim_witness :
    stdoutBytes (main (mockWorld (.ok okResponse))) = utf8 "响应: OK\n" :=
  (main_prints_response_verbatim (mockWorld (.ok okResponse)) payloadJSON 200 (utf8 "OK")
    (by rfl) (by rfl) (by rfl)).1

/-- C2: when `client.Do` returns the error `e`, `main` writes exactly the
diagnostic `发送请求错误: <e>` and a newline, and returns: that write is the
last event of the run, no write begins with the label `响应:`, and the
response body is not read. -/
theorem main_send_error_diagnostic (w : World) (jsonData : Bytes) (e : GoError)
    (hm : w.Marshal requestData = .ok jsonData)
    (hn : w.NewRequestFault (utf8 "POST") (utf8 "http://localhost:8000/api/chat") = none)
    (hd : w.Do (chatRequest jsonData) = .error e) :
    stdoutBytes (main w) = utf8 "发送请求错误:" ++ [32] ++ e.Error ++ [10] ∧
      stdoutWrites (main w) = [utf8 "发送请求错误:" ++ [32] ++ e.Error ++ [10]] ∧
      (main w).getLast? = some (.stdout (utf8 "发送请求错误:" ++ [32] ++ e.Error ++ [10])) ∧
      (∀ text ∈ stdoutWrites (main w), isResponseLine text = false) ∧
      readAttempts (main w) = [] := by
  have hrun := main_of_send_error w jsonData e hm hn hd
  refine ⟨?_, ?_, ?_, ?_, ?_⟩
  · simp [hrun, stdoutBytes, stdoutWrites, Println_pair]
  · simp [hrun, stdoutWrites, Println_pair]
  · simp [hrun, Println_pair]
  · intro text htext
    have htext1 : text = utf8 "发送请求错误:" ++ 32 :: e.Error ++ [10] := by
      simpa [hrun, stdoutWrites, Println_pair] using htext
    rw [htext1]
    rw [isResponseLine, responseLabel, responseLabel_bytes, sendLabel_bytes]
    simp [List.isPrefixOf]
  · simp [hrun, readAttempts]

/-- Witness of C2: the host refuses the connection. -/
theorem main_send_error_diagnostic_witness :
    stdoutWrites (main (mockWorld (.error refusedError))) =
      [utf8 "发送请求错误:" ++ [32] ++ refusedError.Error ++ [10]] :=
  (main_send_error_diagnostic (mockWorld (.error refusedError)) payloadJSON refusedError
    (by rfl) (by rfl) (by rfl)).2.1

/-- C3: when sending succeeds and reading the body fails with the error `e`,
whatever bytes were received before the failure, `main` writes exactly the
diagnostic `读取响应错误: <e>` and a newline: the bytes received are not
written and no write begins with the label `响应:`. -/
theorem main_read_error_diagnostic (w : World) (jsonData : Bytes) (status : Int)
    (received : Bytes) (e : GoError)
    (hm : w.Marshal requestData = .ok jsonData)
    (hn : w.NewRequestFault (utf8 "POST") (utf8 "http://localhost:8000/api/chat") = none)
    (hd : w.Do (chatRequest jsonData) = .ok ⟨status, ⟨received, some e⟩⟩) :
    stdoutBytes (main w) = utf8 "读取响应错误:" ++ [32] ++ e.Error ++ [10] ∧
      stdoutWrites (main w) = [utf8 "读取响应错误:" ++ [32] ++ e.Error ++ [10]] ∧
      ∀ text ∈ stdoutWrites (main w), isResponseLine text = false := by
  have hrun := main_of_read_error w jsonData status received e hm hn hd
  refine ⟨?_, ?_, ?_⟩
  · simp [hrun, stdoutBytes, stdoutWrites, Println_pair]
  · simp [hrun, stdoutWrites, Println_pair]
  · intro text htext
    have htext1 : text = utf8 "读取响应错误:" ++ 32 :: e.Error ++ [10] := by
      simpa [hrun, stdoutWrites, Println_pair] using htext
    rw [htext1]
    rw [isResponseLine, responseLabel, responseLabel_bytes, readLabel_bytes]
    simp [List.isPrefixOf]

/-- Witness of C3: the server closes the connection in the middle of the
body. -/
theorem main_read_error_diagnostic_witness :
    stdoutBytes (main (mockWorld (.ok truncatedResponse))) = utf8 "读取响应错误: unexpected EOF\n" :=
  (main_read_error_diagnostic (mockWorld (.ok truncatedResponse)) payloadJSON 200
    (utf8 "\x7b\"rep") ⟨utf8 "unexpected EOF"⟩ (by rfl) (by rfl) (by rfl)).1

/-- C5: in every run that reaches the send step, the one request handed to
the HTTP client has the header `Content-Type` with the single value
`application/json` and no other header, and the requests sent are the same
whatever `client.Do` (the network and the server) does. -/
theorem request_content_type (w : World) (jsonData : Bytes)
    (hm : w.Marshal requestData = .ok jsonData)
    (hn : w.NewRequestFault (utf8 "POST") (utf8 "http://localhost:8000/api/chat") = none) :
    (sentRequests (main w)).map (fun req => req.Header.Values (utf8 "Content-Type")) =
        [[utf8 "application/json"]] ∧
      (sentRequests (main w)).map (fun req => req.Header) =
        [[(utf8 "Content-Type", [utf8 "application/json"])]] ∧
      ∀ server : Request → Except GoError Response,
        sentRequests (main { w with Do := server }) = sentRequests (main w) := by
  refine ⟨?_, ?_, ?_⟩
  · rw [sentRequests_of_reach w jsonData hm hn]
    rfl
  · rw [sentRequests_of_reach w jsonData hm hn]
    rfl
  · intro server
    rw [sentRequests_of_reach w jsonData hm hn,
      sentRequests_of_reach { w with Do := server } jsonData hm hn]

/-- Witness of C5: the header of the request sent to a host that refuses the
connection. -/
theorem request_content_type_witness :
    (sentRequests (main (mockWorld (.error refusedError)))).map
        (fun req => req.Header.Values (utf8 "Content-Type")) = [[utf8 "application/json"]] :=
  (request_content_type (mockWorld (.error refusedError)) payloadJSON (by rfl) (by rfl)).1

/-- C6: in every run that reaches the send step, the one request handed to
the HTTP client has method `POST`, URL `http://localhost:8000/api/chat` and
as body exactly the bytes `json.Marshal` returned. -/
theorem request_method_url_body (w : World) (jsonData : Bytes)
    (hm : w.Marshal requestData = .ok jsonData)
    (hn : w.NewRequestFault (utf8 "POST") (utf8 "http://localhost:8000/api/chat") = none) :
    (sentRequests (main w)).map (fun req => (req.Method, req.URL, req.Body)) =
      [(utf8 "POST", utf8 "http://localhost:8000/api/chat", jsonData)] := by
  rw [sentRequests_of_reach w jsonData hm hn]
  rfl

/-- Witness of C6: the request sent to the mock server carries the JSON text
of the payload. -/
theorem request_method_url_body_witness :
    (sentRequests (main (mockWorld (.ok okResponse)))).map
        (fun req => (req.Method, req.URL, req.Body)) =
      [(utf8 "POST", utf8 "http://localhost:8000/api/chat",
        utf8 "\x7b\"message\":\"你好\",\"stream\":false\x7d")] :=
  request_method_url_body (mockWorld (.ok okResponse)) payloadJSON (by rfl) (by rfl)

/-- C7: whenever `client.Do` yields a response, its body is closed exactly
once; the close comes after the read attempt on that body and is the last
event before `main` returns, whether the read succeeds or fails. -/
theorem body_closed_once_after_read (w : World) (jsonData : Bytes) (resp : Response)
    (hm : w.Marshal requestData = .ok jsonData)
    (hn : w.NewRequestFault (utf8 "POST") (utf8 "http://localhost:8000/api/chat") = none)
    (hd : w.Do (chatRequest jsonData) = .ok resp) :
    closes (main w) = [resp.Body] ∧ releaseCount (main w) = 1 ∧
      readAttempts (main w) = [resp.Body] ∧ closesAfterReads [] (main w) = true ∧
      (main w).getLast? = some (.close resp.Body) := by
  obtain ⟨text, hrun⟩ := main_of_response w jsonData resp hm hn hd
  simp [hrun, closes, releaseCount, readAttempts, closesAfterReads]

/-- Witness of C7: the body of a response whose read fails is closed once. -/
theorem body_closed_once_after_read_witness :
    closes (main (mockWorld (.ok truncatedResponse))) = [truncatedResponse.Body] ∧
      releaseCount (main (mockWorld (.ok truncatedResponse))) = 1 :=
  ⟨(body_closed_once_after_read (mockWorld (.ok truncatedResponse)) payloadJSON
      truncatedResponse (by rfl) (by rfl) (by rfl)).1,
    (body_closed_once_after_read (mockWorld (.ok truncatedResponse)) payloadJSON
      truncatedResponse (by rfl) (by rfl) (by rfl)).2.1⟩

/-- C8, as stated, fails: on the network-error path there is no response
body and the release occurs not once but never; on the read-error path the
body is released although the read ended with an error before the body was
fully read. -/
theorem release_on_every_exit_path_counterexample :
    (exitPath (mockWorld (.error refusedError)) = .networkError ∧
        releaseCount (main (mockWorld (.error refusedError))) ≠ 1) ∧
      (exitPath (mockWorld (.ok truncatedResponse)) = .readError ∧
        closes (main (mockWorld (.ok truncatedResponse))) = [truncatedResponse.Body] ∧
        (ReadAll truncatedResponse.Body).2 ≠ none) := by
  decide

/-- C8, amended: on every exit path the response body is released at most
once and only after the read attempt on it. On the read-error and success
paths it is released exactly once, the body closed being the body read, and
on the success path that read consumed the whole body. On the
encoding-error, request-construction-error and network-error paths no body
exists and none is released. -/
theorem release_by_exit_path (w : World) :
    releaseCount (main w) =
        (match exitPath w with
          | .readError => 1
          | .success => 1
          | _ => 0) ∧
      closesAfterReads [] (main w) = true ∧
      closes (main w) = readAttempts (main w) ∧
      (exitPath w = .success → ∀ body ∈ closes (main w), ReadAll body = (body.received, none)) := by
  rcases main_shape w with ⟨hp, e, hrun⟩ | ⟨hp, _, e, hrun⟩ | ⟨hp, _, e, hrun⟩ |
    ⟨hp, _, _, e, hrun⟩ | ⟨hp, _, b, hrun⟩ <;>
  simp [hp, hrun, releaseCount, closes, readAttempts, closesAfterReads, ReadAll]

/-- Witness of C8, amended: one release after the full read on the success
path. -/
theorem release_by_exit_path_witness :
    releaseCount (main (mockWorld (.ok okResponse))) = 1 ∧
      ∀ body ∈ closes (main (mockWorld (.ok okResponse))), ReadAll body = (body.received, none) :=
  ⟨(release_by_exit_path (mockWorld (.ok okResponse))).1,
    (release_by_exit_path (mockWorld (.ok okResponse))).2.2.2 (by decide)⟩

/-- C9, as stated, fails twice. A response body with a newline in it is
printed verbatim, and standard output receives two lines, not one. And when
the server answers the request with a redirect to another port, the one call
of `client.Do` follows it, and the run opens two outbound connections, not at
most one. -/
theorem one_line_one_connection_counterexample :
    (exitPath (mockWorld (.ok twoLineResponse)) = .success ∧
        lineCount (stdoutBytes (main (mockWorld (.ok twoLineResponse)))) = 2 ∧
        lineCount (stdoutBytes (main (mockWorld (.ok twoLineResponse)))) ≠ 1) ∧
      (exitPath redirectedWorld = .success ∧
        (sentRequests (main redirectedWorld)).length = 1 ∧
        connections redirectingTransport (main redirectedWorld) =
          [utf8 "http://localhost:8000", utf8 "http://localhost:9000"] ∧
        ¬ (connections redirectingTransport (main redirectedWorld)).length ≤ 1) := by
  decide

/-- C9, amended: for every outcome of the four fallible steps and every
response body, `main` makes exactly one write to standard output: the label
of its exit path (the response label or one of the four diagnostic labels), a
space, the body or the error text, and a newline. The written text begins
with exactly one of the five labels, it is a single line whenever the body or
error text has no newline in it, and `client.Do` is called at most once. Over
every network that call makes at most ten round trips, each on at most one
new connection, and the run opens at most one outbound connection whenever
the reply to the request is not a redirect that the client follows. -/
theorem one_message_per_run (w : World) :
    (∃ detail : Bytes,
        stdoutWrites (main w) = [exitLabel (exitPath w) ++ [32] ++ detail ++ [10]] ∧
        (detail.count 10 = 0 → lineCount (stdoutBytes (main w)) = 1)) ∧
      (stdoutWrites (main w)).length = 1 ∧
      (∀ text ∈ stdoutWrites (main w),
        ((responseLabel :: diagnosticLabels).filter
          (fun label => label.isPrefixOf text)).length = 1) ∧
      (sentRequests (main w)).length ≤ 1 ∧
      ∀ t : Transport,
        (roundTrips t (main (w.overTransport t))).length ≤ 10 ∧
        (connections t (main (w.overTransport t))).length ≤
          (roundTrips t (main (w.overTransport t))).length ∧
        ((∀ req ∈ sentRequests (main (w.overTransport t)),
            isFollowed req.Method (t 0 ⟨req.Method, req.URL, req.Body⟩) = false) →
          (connections t (main (w.overTransport t))).length ≤ 1) := by
  obtain ⟨detail, hout⟩ := stdoutWrites_main w
  refine ⟨⟨detail, ?_, ?_⟩, ?_, ?_, ?_, ?_⟩
  · simpa using hout
  · intro hdetail
    have hbytes : stdoutBytes (main w) = exitLabel (exitPath w) ++ 32 :: detail ++ [10] := by
      simp [stdoutBytes, hout]
    rw [hbytes, lineCount_message, hdetail]
  · simp [hout]
  · intro text htext
    have htext1 : text = exitLabel (exitPath w) ++ 32 :: detail ++ [10] := by
      simpa [hout] using htext
    rw [htext1]
    exact one_label_matches (exitPath w) detail
  · rcases sentRequests_main w with hnone | ⟨req, hone⟩
    · simp [hnone]
    · simp [hone]
  · intro t
    refine ⟨roundTrips_length t _, freshConnections_length [] _, ?_⟩
    intro hfinal
    exact Nat.le_trans (freshConnections_length [] _) (roundTrips_unfollowed t _ hfinal)

/-- Witness of C9, amended: one write, one request and one connection for a
server that answers 200 with body `OK`. -/
theorem one_message_per_run_witness :
    (stdoutWrites (main (mockWorld (.ok okResponse)))).length = 1 ∧
      (sentRequests (main (mockWorld (.ok okResponse)))).length ≤ 1 ∧
      (connections plainTransport
        (main ((mockWorld (.ok okResponse)).overTransport plainTransport))).length ≤ 1 :=
  ⟨(one_message_per_run (mockWorld (.ok okResponse))).2.1,
    (one_message_per_run (mockWorld (.ok okResponse))).2.2.2.1,
    ((one_message_per_run (mockWorld (.ok okResponse))).2.2.2.2 plainTransport).2.2
      (by decide)⟩

/-- C4: the bytes `json.Marshal` returns for the payload, parsed back as
JSON, give exactly the mapping with the two keys `message`, holding the
string `你好`, and `stream`, holding `false`: the payload itself. -/
theorem payload_round_trip :
    Marshal requestData = .ok payloadJSON ∧
      Unmarshal payloadJSON = some requestData ∧
      Unmarshal payloadJSON =
        some (.map [(utf8 "message", .string (utf8 "你好")), (utf8 "stream", .bool false)]) := by
  refine ⟨?_, ?_, ?_⟩ <;> rfl

/-- C10: `json.Marshal` of the payload does not fail: it returns the JSON text
of the payload, which is not empty and is valid JSON. With this `json.Marshal`
no run of `main` takes the encoding-error exit or writes a text that begins
with `JSON编码错误:`, and every run calls `http.NewRequest` once, with that
text as body. -/
theorem payload_marshal_never_fails :
    Marshal requestData = .ok (utf8 "\x7b\"message\":\"你好\",\"stream\":false\x7d") ∧
      utf8 "\x7b\"message\":\"你好\",\"stream\":false\x7d" ≠ [] ∧
      Valid (utf8 "\x7b\"message\":\"你好\",\"stream\":false\x7d") = true ∧
      ∀ (newRequestFault : Bytes → Bytes → Option GoError)
        (server : Request → Except GoError Response),
        exitPath (goWorld newRequestFault server) ≠ .encodingError ∧
        (∀ text ∈ stdoutWrites (main (goWorld newRequestFault server)),
          (utf8 "JSON编码错误:").isPrefixOf text = false) ∧
        constructions (main (goWorld newRequestFault server)) =
          [(utf8 "POST", utf8 "http://localhost:8000/api/chat",
            utf8 "\x7b\"message\":\"你好\",\"stream\":false\x7d")] := by
  refine ⟨by rfl, by decide, by rfl, ?_⟩
  intro newRequestFault server
  have hm : (goWorld newRequestFault server).Marshal requestData = .ok payloadJSON := by rfl
  have hpath : exitPath (goWorld newRequestFault server) ≠ .encodingError :=
    exitPath_of_marshal (goWorld newRequestFault server) payloadJSON hm
  refine ⟨hpath, ?_, ?_⟩
  · intro text htext
    obtain ⟨detail, hout⟩ := stdoutWrites_main (goWorld newRequestFault server)
    have htext1 : text =
        exitLabel (exitPath (goWorld newRequestFault server)) ++ 32 :: detail ++ [10] := by
      simpa [hout] using htext
    rw [htext1, exitLabel_bytes, encodingLabel_bytes]
    revert hpath
    cases exitPath (goWorld newRequestFault server) <;> simp [List.isPrefixOf]
  · exact constructions_of_marshal (goWorld newRequestFault server) payloadJSON hm

end Agent
